import Mathlib

/-!
A shallow embedding of `convert_to_curve.py` (class `CurveConverter`) of the
Registration-Metadata-Transformer repository, together with theorems that
settle the frozen claims about its specification.

Modelling conventions (stated once, used throughout):
* Python `str` values are Lean `String`s; where list recursion is needed the
  functions work on `List Char` (`String.data`) with `String` wrappers.
* Python `float` is modelled by `ℚ` (exact rational arithmetic; the binary
  rounding of IEEE doubles is idealized away, noted at each use).
* Dynamically-typed cell values (str / float / None / NaN / list) are the
  inductive type `Val`; `None` and `NaN` are merged into `Val.vnone` because
  every use in the modelled code treats them identically (both satisfy
  `pd.isna`, and every truthiness test on them is conjoined with
  `not pd.isna(...)`).
* Regular expressions of the source are compiled by hand into scanning
  functions over `List Char`; each definition carries the regex it embeds.
-/

/-! ## Python string primitives -/

/-- The whitespace characters stripped by Python `str.strip()`
(ASCII part: space, tab, newline, carriage return, vertical tab, form feed). -/
def pyWs (c : Char) : Bool :=
  c = ' ' || c = '\t' || c = '\n' || c = '\r' || c = Char.ofNat 11 || c = Char.ofNat 12

/-- Python `str.strip()` on a character list. -/
def pyStripL (cs : List Char) : List Char :=
  ((cs.dropWhile pyWs).reverse.dropWhile pyWs).reverse

/-- Python `str.strip()`. -/
def pyStrip (s : String) : String := ⟨pyStripL s.data⟩

/-- Whether `pat` occurs as a contiguous sublist of `cs` (Python `pat in s`). -/
def containsSub (pat : List Char) : List Char → Bool
  | [] => pat = []
  | c :: cs => pat.isPrefixOf (c :: cs) || containsSub pat cs

/-- Recursion core of Python `str.replace(pat, repl)`: replace every
non-overlapping occurrence of `pat`, scanning left to right (the source only
ever replaces non-empty patterns, which is what this models). -/
def replaceSubAux (pat repl : List Char) : ℕ → List Char → List Char
  | 0, cs => cs
  | _ + 1, [] => []
  | fuel + 1, c :: cs =>
    if pat ≠ [] ∧ pat.isPrefixOf (c :: cs) then
      repl ++ replaceSubAux pat repl fuel ((c :: cs).drop pat.length)
    else
      c :: replaceSubAux pat repl fuel cs

/-- Python `str.replace(pat, repl)` (entry point of `replaceSubAux`: every
step of the scan consumes at least one character, so `cs.length` steps of
fuel always suffice and the fuel-exhaustion branch is unreachable). -/
def replaceSub (pat repl : List Char) (cs : List Char) : List Char :=
  replaceSubAux pat repl cs.length cs

/-- Python `str.replace` on `String`. -/
def pyReplace (s pat repl : String) : String := ⟨replaceSub pat.data repl.data s.data⟩

/-- Text of `cs` strictly before the first occurrence of the character `c`
(Python `s.split(c)[0]` for a one-character separator). -/
def takeUntilChar (c : Char) : List Char → List Char
  | [] => []
  | x :: xs => if x = c then [] else x :: takeUntilChar c xs

/-- Text of `cs` strictly before the first occurrence of the (non-empty)
pattern `pat` (Python `s.split(pat)[0]`). -/
def takeUntilSub (pat : List Char) : List Char → List Char
  | [] => []
  | x :: xs => if pat.isPrefixOf (x :: xs) then [] else x :: takeUntilSub pat xs

/-- Recursion core of Python `str.split(sep)`, structured with fuel. -/
def splitOnSubAux (pat : List Char) : ℕ → List Char → List (List Char)
  | 0, cs => [cs]
  | _ + 1, [] => [[]]
  | fuel + 1, x :: xs =>
    if pat.isPrefixOf (x :: xs) then
      [] :: splitOnSubAux pat fuel ((x :: xs).drop pat.length)
    else
      match splitOnSubAux pat fuel xs with
      | [] => [[x]]
      | p :: ps => (x :: p) :: ps

/-- Python `str.split(sep)` with a non-empty separator, over lists (fuel
entry point as for `replaceSub`; an empty separator raises in Python and
never reaches this model). -/
def splitOnSub (pat : List Char) (cs : List Char) : List (List Char) :=
  if pat = [] then [cs] else splitOnSubAux pat cs.length cs

/-- Python `str.isdigit()` restricted to ASCII digits (the source only meets
ASCII data; Unicode digit classes are not modelled). -/
def pyIsdigit (cs : List Char) : Bool := cs ≠ [] && cs.all Char.isDigit

/-- Numeric value of a digit run (most significant first). -/
def digitsVal (cs : List Char) : ℕ :=
  cs.foldl (fun a c => a * 10 + (c.toNat - 48)) 0

/-- Python `str.startswith(pre)`. -/
def pyStartsWith (s pre : String) : Bool := pre.data.isPrefixOf s.data

/-- Python `int(s)` on a non-negative decimal literal (the only form the
mapping configurations use for `padleft` widths); `none` where `int()`
raises. -/
def pyToNat (s : String) : Option ℕ :=
  if s.data ≠ [] ∧ s.data.all Char.isDigit then some (digitsVal s.data) else none

/-- Character-count prefix removal (`transform.split(':', 1)[1]` for a
prefix of known length). -/
def strDropN (s : String) (n : ℕ) : String := ⟨s.data.drop n⟩

/-! ## Python float parsing and rounding -/

/-- Exponent suffix of a Python float literal: optional sign then a non-empty
digit run reaching the end of the string; scales the mantissa `m`. -/
def pyExpPart (m : ℚ) (r : List Char) : Option ℚ :=
  let (neg, r1) : Bool × List Char :=
    match r with
    | '+' :: t => (false, t)
    | '-' :: t => (true, t)
    | t => (false, t)
  let ds := r1.takeWhile Char.isDigit
  if ds = [] || r1.drop ds.length ≠ [] then none
  else some (if neg then m / (10 : ℚ) ^ digitsVal ds else m * (10 : ℚ) ^ digitsVal ds)

/-- Python `float(s)` on the numeric literal forms the source can meet:
optional surrounding whitespace, optional sign, a mantissa `digits`,
`digits.digits`, `digits.` or `.digits`, and an optional `e`/`E` exponent.
(`inf`, `nan` and underscore separators are accepted by Python but never
produced by the data this program reads; they are left out of the model.)
Returns `none` where Python raises `ValueError`. -/
def pyFloatL (cs0 : List Char) : Option ℚ :=
  let cs1 := pyStripL cs0
  let (neg, cs2) : Bool × List Char :=
    match cs1 with
    | '+' :: t => (false, t)
    | '-' :: t => (true, t)
    | t => (false, t)
  let ip := cs2.takeWhile Char.isDigit
  let r1 := cs2.drop ip.length
  let (fp, r2) : List Char × List Char :=
    match r1 with
    | '.' :: t => (t.takeWhile Char.isDigit, t.drop (t.takeWhile Char.isDigit).length)
    | t => ([], t)
  if ip = [] && fp = [] then none
  else
    let mant : ℚ := (digitsVal ip : ℚ) + (digitsVal fp : ℚ) / (10 : ℚ) ^ fp.length
    let signed : ℚ := if neg then -mant else mant
    match r2 with
    | [] => some signed
    | 'e' :: r3 => pyExpPart signed r3
    | 'E' :: r3 => pyExpPart signed r3
    | _ => none

/-- Python `float(s)` on a `String`. -/
def pyFloatS (s : String) : Option ℚ := pyFloatL s.data

/-- Round to the nearest integer, ties to even (the rounding of Python
`round`, idealized to exact rationals). -/
def roundHalfEven (q : ℚ) : ℤ :=
  let f := ⌊q⌋
  let r := q - (f : ℚ)
  if r < 1 / 2 then f
  else if r > 1 / 2 then f + 1
  else if f % 2 = 0 then f else f + 1

/-- Python `round(x, 2)` (exact-rational idealization of float rounding). -/
def round2 (q : ℚ) : ℚ := (roundHalfEven (q * 100) : ℚ) / 100

/-- Python `round(x, 4)` (exact-rational idealization of float rounding). -/
def round4 (q : ℚ) : ℚ := (roundHalfEven (q * 10000) : ℚ) / 10000

/-! ## Dynamic values -/

/-- A pandas/Python cell value as the converter sees it. -/
inductive Val where
  /-- a Python `str` -/
  | vstr (s : String)
  /-- a Python numeric value (float/int), idealized to `ℚ` -/
  | vnum (q : ℚ)
  /-- `None` / `NaN` (merged: every modelled use treats them alike) -/
  | vnone
  /-- a Python `list` of strings (produced by the `split:` transform) -/
  | vlist (l : List String)
  deriving DecidableEq, Repr

/-- `pd.isna(value)` on the modelled values. -/
def Val.isna : Val → Bool
  | vnone => true
  | _ => false

/-- Python truthiness of the modelled values (`None` is falsy; `NaN` is truthy
in Python, but every modelled use guards it with `not pd.isna(...)`, so merging
it into the falsy `vnone` is behaviour-preserving at each call site). -/
def Val.truthy : Val → Bool
  | vstr s => s ≠ ""
  | vnum q => q ≠ 0
  | vnone => false
  | vlist l => l ≠ []

/-- Decimal rendering of a rational whose denominator divides a power of ten
(every float the modelled code prints is such), used for Python `str(float)`:
`str(50.0) = "50.0"`, `str(2.5) = "2.5"`. Non-terminating rationals cannot
arise from binary floats; they fall back to the raw rational rendering. -/
def qRepr (q : ℚ) : String :=
  if q.den = 1 then toString q.num ++ ".0"
  else
    match (List.range 40).find? (fun k => (q * (10 : ℚ) ^ k).den = 1) with
    | some k =>
      let m := (q * (10 : ℚ) ^ k).num.natAbs
      let ds := toString m
      let ds := if ds.length ≤ k then String.mk (List.replicate (k + 1 - ds.length) '0') ++ ds else ds
      let i := ds.length - k
      (if q < 0 then "-" else "") ++ ⟨ds.data.take i⟩ ++ "." ++ ⟨ds.data.drop i⟩
    | none => toString q

/-- Python `str(value)` on the modelled values (float rendering via `qRepr`;
`str(None) = "None"`, `str(nan) = "nan"` — the merged `vnone` renders as
`"nan"`, which no modelled theorem depends on; lists render approximately). -/
def pyStr : Val → String
  | .vstr s => s
  | .vnum q => qRepr q
  | .vnone => "nan"
  | .vlist l => toString l

/-- Python `float(value)` applied to a dynamic value: numbers pass through,
strings are parsed, anything else raises (`none`). -/
def floatV : Val → Option ℚ
  | .vnum q => some q
  | .vstr s => pyFloatS s
  | _ => none

/-! ## `parse_date` (`CurveConverter.parse_date`, lines 285-314)

`datetime.strptime` with the eight fixed patterns of the source.  Each
pattern is three fields joined by a fixed separator; CPython compiles
`%Y` to exactly four digits, `%m` to 1-2 digits valued 1..12, `%d` to
1-2 digits valued 1..31, anchors the whole string, and `datetime`
additionally requires the day to exist in the month and the year to be
at least 1. -/

/-- Field order of one strptime pattern. -/
inductive FOrd where
  | ymd | mdy | dmy
  deriving DecidableEq, Repr

/-- One strptime pattern of the source: a separator and a field order. -/
structure DateFmt where
  sep : String
  ord : FOrd
  deriving DecidableEq, Repr

/-- The ordered pattern list of `parse_date`:
`['%Y-%m-%d', '%m/%d/%Y', '%d/%m/%Y', '%Y/%m/%d', '%m-%d-%Y', '%d-%m-%Y', '%Y.%m.%d', '%m.%d.%Y']`. -/
def strptimeFormats : List DateFmt :=
  [⟨"-", .ymd⟩, ⟨"/", .mdy⟩, ⟨"/", .dmy⟩, ⟨"/", .ymd⟩,
   ⟨"-", .mdy⟩, ⟨"-", .dmy⟩, ⟨".", .ymd⟩, ⟨".", .mdy⟩]

/-- Gregorian leap year, as Python `datetime` computes it. -/
def isLeap (y : ℕ) : Bool := y % 4 = 0 && (y % 100 ≠ 0 || y % 400 = 0)

/-- Days in a month, as Python `datetime` computes it. -/
def daysInMonth (y m : ℕ) : ℕ :=
  if m = 2 then (if isLeap y then 29 else 28)
  else if m = 4 || m = 6 || m = 9 || m = 11 then 30
  else 31

/-- `%Y`: exactly four digits; `datetime` then requires `1 ≤ y`. -/
def parseY (s : String) : Option ℕ :=
  if s.length = 4 && s.data.all Char.isDigit && 1 ≤ digitsVal s.data
  then some (digitsVal s.data) else none

/-- `%m`/`%d`: one or two digits, value within `lo..hi`. -/
def parse2 (lo hi : ℕ) (s : String) : Option ℕ :=
  if (s.length = 1 || s.length = 2) && s.data.all Char.isDigit
      && lo ≤ digitsVal s.data && digitsVal s.data ≤ hi
  then some (digitsVal s.data) else none

/-- `datetime.strptime(s, f)` for one of the eight patterns, returning the
parsed `(year, month, day)` or `none` where Python raises `ValueError`. -/
def strptime1 (f : DateFmt) (s : String) : Option (ℕ × ℕ × ℕ) :=
  match splitOnSub f.sep.data s.data with
  | [a, b, c] =>
    let (ys, ms, ds) : List Char × List Char × List Char :=
      match f.ord with
      | .ymd => (a, b, c)
      | .mdy => (c, a, b)
      | .dmy => (c, b, a)
    match parseY ⟨ys⟩, parse2 1 12 ⟨ms⟩, parse2 1 31 ⟨ds⟩ with
    | some y, some m, some d => if d ≤ daysInMonth y m then some (y, m, d) else none
    | _, _, _ => none
  | _ => none

/-- zero-pad a natural to two digits (strftime `%m`, `%d`). -/
def pad2 (n : ℕ) : String := if n < 10 then "0" ++ toString n else toString n

/-- zero-pad a natural to four digits (strftime `%Y`). -/
def pad4 (n : ℕ) : String :=
  String.mk (List.replicate (4 - (toString n).length) '0') ++ toString n

/-- `datetime(y, m, d).strftime(fmt)` at midnight, on the directives the
mapping configurations use (`%Y %m %d %H %M %S %%`); an unrecognized
directive passes through literally (CPython behaviour on common platforms). -/
def strftimeYMD (y m d : ℕ) : List Char → List Char
  | [] => []
  | '%' :: 'Y' :: r => (pad4 y).data ++ strftimeYMD y m d r
  | '%' :: 'm' :: r => (pad2 m).data ++ strftimeYMD y m d r
  | '%' :: 'd' :: r => (pad2 d).data ++ strftimeYMD y m d r
  | '%' :: 'H' :: r => '0' :: '0' :: strftimeYMD y m d r
  | '%' :: 'M' :: r => '0' :: '0' :: strftimeYMD y m d r
  | '%' :: 'S' :: r => '0' :: '0' :: strftimeYMD y m d r
  | '%' :: '%' :: r => '%' :: strftimeYMD y m d r
  | '%' :: c :: r => '%' :: c :: strftimeYMD y m d r
  | c :: r => c :: strftimeYMD y m d r

/-- First pattern of `l` that parses `s` (the `for fmt in formats` loop). -/
def tryFormats (l : List DateFmt) (s : String) : Option (ℕ × ℕ × ℕ) :=
  l.findSome? (fun f => strptime1 f s)

/-- The cleaning `parse_date` applies before matching: `str(date_str).strip()`
followed by `date_str.replace(' 00:00:00', '')` when that substring occurs
(note: `str.replace` removes every occurrence, not only a trailing one). -/
def cleanDate (s : String) : String :=
  let s1 := pyStrip s
  if containsSub " 00:00:00".data s1.data
  then pyReplace s1 " 00:00:00" "" else s1

/-- `CurveConverter.parse_date(date_str, output_format)` on string input
(the pandas-`Timestamp` branch concerns non-string cells and is outside the
string model; `pd.isna` on a string is false). -/
def parse_date (date_str : String) (output_format : String) : String :=
  if date_str.data = [] then ""
  else
    let s2 := cleanDate date_str
    match tryFormats strptimeFormats s2 with
    | some (y, m, d) => ⟨strftimeYMD y m d output_format.data⟩
    | none => s2

/-! ## Percentage transforms (lines 316-336) -/

/-- `CurveConverter.convert_to_percent_100(value)`:
`float(str(value).replace('%',''))`, values in `[0,1]` scaled by 100,
rounded to 2 decimals; unparseable input gives `0.0`. -/
def convert_to_percent_100 (value : String) : ℚ :=
  match pyFloatS (pyReplace value "%" "") with
  | some val => round2 (if 0 ≤ val ∧ val ≤ 1 then val * 100 else val)
  | none => 0

/-- `CurveConverter.convert_to_percent_1(value)`:
`float(str(value).replace('%',''))`, values above 1 scaled by 1/100,
rounded to 4 decimals; unparseable input gives `0.0`. -/
def convert_to_percent_1 (value : String) : ℚ :=
  match pyFloatS (pyReplace value "%" "") with
  | some val => round4 (if 1 < val then val / 100 else val)
  | none => 0

/-! ## Code formatters (lines 338-389) -/

/-- `CurveConverter.format_iswc(value)`: keep only digits
(`re.sub(r'[^0-9]', '', value)`); exactly ten digits format as
`T-XXXXXXXXX-X`, anything else passes through unchanged. -/
def format_iswc (value : String) : String :=
  if value.data = [] then ""
  else
    let digits := value.data.filter Char.isDigit
    if digits.length = 10
    then ⟨'T' :: '-' :: (digits.take 9 ++ '-' :: digits.drop 9)⟩
    else value

/-- `CurveConverter.format_isrc(value)`: take the first newline- or
comma-separated code, drop hyphens and spaces, uppercase; twelve characters
format as `CC-XXX-YY-NNNNN`, else the cleaned value passes through. -/
def format_isrc (value : String) : String :=
  if value.data = [] then ""
  else
    let v := pyStrip value
    let v : String :=
      if containsSub ['\n'] v.data then ⟨pyStripL (takeUntilChar '\n' v.data)⟩
      else if containsSub [','] v.data then ⟨pyStripL (takeUntilChar ',' v.data)⟩
      else v
    let v : List Char := (v.data.map Char.toUpper).filter (fun c => c ≠ '-' && c ≠ ' ')
    if v.length = 12
    then ⟨v.take 2 ++ '-' :: ((v.drop 2).take 3 ++ '-' :: ((v.drop 5).take 2 ++ '-' :: v.drop 7))⟩
    else ⟨v⟩

/-- `CurveConverter.format_ipi(value)`: keep only digits. -/
def format_ipi (value : String) : String :=
  if value.data = [] then "" else ⟨value.data.filter Char.isDigit⟩

/-- Truncation toward zero, Python `int(float)`. -/
def truncQ (q : ℚ) : ℤ := if 0 ≤ q then ⌊q⌋ else ⌈q⌉

/-- Python `f"{n:02d}"`: decimal rendering zero-padded to width two
(the sign counts toward the width). -/
def pyFmt02 (n : ℤ) : String :=
  let s := toString n
  if s.length < 2 then "0" ++ s else s

/-- `CurveConverter.format_duration(value)`: values containing `:` pass
through; otherwise `int(float(value))` seconds become `MM:SS` with Python
floor division and modulo; parse failure passes the value through. -/
def format_duration (value : String) : String :=
  if value.data = [] then ""
  else if containsSub [':'] value.data then value
  else
    match pyFloatS value with
    | some q =>
      let seconds := truncQ q
      pyFmt02 (Int.fdiv seconds 60) ++ ":" ++ pyFmt02 (Int.fmod seconds 60)
    | none => value

/-! ## MCAT extraction functions (lines 391-510) -/

/-- The eight performing-rights-society codes of the source regexes,
in the alternation order `ASCAP|BMI|SESAC|PRS|GEMA|SACEM|SOCAN|APRA`. -/
def socCodes : List (List Char) :=
  ["ASCAP", "BMI", "SESAC", "PRS", "GEMA", "SACEM", "SOCAN", "APRA"].map String.data

/-- `CurveConverter.extract_writer_name(value)` on character lists.
The regex `^([^(]+?)(?:\s*\(|$)` (via `re.search`, hence anchored by the
`^`) matches exactly when the value is non-empty and does not start with
`(`; its lazy group, followed by `.strip()`, yields the trimmed text before
the first `(` (the `\s*` swallows at most whitespace `.strip()` would also
drop).  Only when the regex fails (value starting with `(`) does the
fallback `value.split('(')[0].split(' - ')[0].strip()` run. -/
def extract_writer_nameL (cs : List Char) : List Char :=
  match cs with
  | [] => []
  | c :: _ =>
    if c = '(' then
      pyStripL (takeUntilSub " - ".data (takeUntilChar '(' cs))
    else
      pyStripL (takeUntilChar '(' cs)

/-- `CurveConverter.extract_writer_name(value)`. -/
def extract_writer_name (value : String) : String := ⟨extract_writer_nameL value.data⟩

/-- First match of `re.findall(r'\((ASCAP|BMI|SESAC|PRS|GEMA|SACEM|SOCAN|APRA)\)', s)`:
scan left to right for `(` immediately followed by one of the codes and `)`. -/
def findParenSoc : List Char → Option (List Char)
  | [] => none
  | c :: rest =>
    if c = '(' then
      match socCodes.find? (fun code => (code ++ [')']).isPrefixOf rest) with
      | some code => some code
      | none => findParenSoc rest
    else findParenSoc rest

/-- `CurveConverter.extract_writer_society(value)`: first society code in
parentheses, else the empty string. -/
def extract_writer_society (value : String) : String :=
  if value.data = [] then ""
  else ((findParenSoc value.data).map (fun l => (⟨l⟩ : String))).getD ""

/-- `re.search(r'(\d{9,11})', s)`: first position opening a run of at least
nine digits; the greedy quantifier takes at most eleven of them. -/
def findDigitRun : List Char → Option (List Char)
  | [] => none
  | c :: rest =>
    let run := (c :: rest).takeWhile Char.isDigit
    if 9 ≤ run.length then some (run.take 11) else findDigitRun rest

/-- `CurveConverter.extract_writer_ipi(value)`: first run of 9-11 digits,
else the empty string. -/
def extract_writer_ipi (value : String) : String :=
  if value.data = [] then ""
  else ((findDigitRun value.data).map (fun l => (⟨l⟩ : String))).getD ""

/-- Match `\d+(?:\.\d+)?%` at the head of `cs`, returning the number text
(backtracking inside the digit runs can never rescue a failed match, so the
greedy runs are taken whole). -/
def matchPct (cs : List Char) : Option (List Char) :=
  let d := cs.takeWhile Char.isDigit
  if d = [] then none
  else
    match cs.drop d.length with
    | '.' :: r2 =>
      let f := r2.takeWhile Char.isDigit
      if f ≠ [] && (r2.drop f.length).head? = some '%'
      then some (d ++ '.' :: f)
      else none
    | '%' :: _ => some d
    | _ => none

/-- `re.search(r'(\d+(?:\.\d+)?)%', s)`: earliest start position wins. -/
def findPct : List Char → Option (List Char)
  | [] => none
  | c :: rest =>
    match matchPct (c :: rest) with
    | some v => some v
    | none => findPct rest

/-- `re.search(r'Payday Total:\s*(\d+(?:\.\d+)?)%', s)`: earliest position
where the literal label, optional whitespace and a percentage all match. -/
def findPaydayTotal : List Char → Option (List Char)
  | [] => none
  | c :: rest =>
    let here :=
      if ("Payday Total:".data).isPrefixOf (c :: rest) then
        matchPct (((c :: rest).drop 13).dropWhile pyWs)
      else none
    match here with
    | some v => some v
    | none => findPaydayTotal rest

/-- `CurveConverter.extract_mechanical_share(value)`: the labelled
`Payday Total: NN%` number if present, else the first bare `NN%` number,
else `0.0` (`float` of the matched text). -/
def extract_mechanical_share (value : String) : ℚ :=
  if value.data = [] then 0
  else
    match findPaydayTotal value.data with
    | some v => (pyFloatL v).getD 0
    | none =>
      match findPct value.data with
      | some v => (pyFloatL v).getD 0
      | none => 0

/-- `CurveConverter.extract_performance_share(value)`: delegates to the
mechanical extractor. -/
def extract_performance_share (value : String) : ℚ :=
  extract_mechanical_share value

/-- `CurveConverter.extract_additional_writer_name(value)`: scan the
newline-separated lines; a line containing `:` yields its pre-colon text
when that is non-empty and not purely numeric after dropping spaces and
dots; otherwise a line containing both ` - ` and `%` yields its pre-` - `
text when non-empty; else fall through to the first line's leading token. -/
def extract_additional_writer_name (value : String) : String :=
  if value.data = [] then ""
  else
    let lines := splitOnSub ['\n'] value.data
    let rec scan : List (List Char) → Option (List Char)
      | [] => none
      | line :: more =>
        if containsSub [':'] line then
          let name := pyStripL (takeUntilChar ':' line)
          if name ≠ [] && !(pyIsdigit ((name.filter (fun c => c ≠ ' ')).filter (fun c => c ≠ '.')))
          then some name
          else scan more
        else if containsSub " - ".data line && containsSub ['%'] line then
          let name := pyStripL (takeUntilSub " - ".data line)
          if name ≠ [] then some name else scan more
        else scan more
    match scan lines with
    | some name => ⟨name⟩
    | none =>
      let first_line := pyStripL (lines.headD [])
      ⟨pyStripL (takeUntilSub " - ".data (takeUntilChar ':' first_line))⟩

/-- Python word characters (`\w` / `\b` boundaries), ASCII model. -/
def wordChar (c : Char) : Bool := c.isAlphanum || c = '_'

/-- First match of `re.findall(r'\b(ASCAP|BMI|SESAC|PRS|GEMA|SACEM|SOCAN|APRA)\b', s)`:
the code as a bare word, both ends at a word boundary.  `prev` is the
character preceding the scan position (`none` at the start). -/
def findWordSoc (prev : Option Char) : List Char → Option (List Char)
  | [] => none
  | c :: rest =>
    let boundaryBefore := match prev with
      | none => true
      | some p => !wordChar p
    let hit :=
      if boundaryBefore then
        socCodes.find? (fun code =>
          code.isPrefixOf (c :: rest) &&
          (match ((c :: rest).drop code.length).head? with
           | none => true
           | some nxt => !wordChar nxt))
      else none
    match hit with
    | some code => some code
    | none => findWordSoc (some c) rest

/-- `CurveConverter.extract_additional_writer_society(value)`: first bare
society-code word, else the empty string. -/
def extract_additional_writer_society (value : String) : String :=
  if value.data = [] then ""
  else ((findWordSoc none value.data).map (fun l => (⟨l⟩ : String))).getD ""

/-- `CurveConverter.extract_additional_mechanical_share(value)`: first
percentage anywhere in the text, else `0.0`. -/
def extract_additional_mechanical_share (value : String) : ℚ :=
  if value.data = [] then 0
  else
    match findPct value.data with
    | some v => (pyFloatL v).getD 0
    | none => 0

/-- `CurveConverter.extract_additional_performance_share(value)`: delegates
to the mechanical extractor. -/
def extract_additional_performance_share (value : String) : ℚ :=
  extract_additional_mechanical_share value

/-- Characters admitted by `[^-\n]`. -/
def noDashNL (c : Char) : Bool := c ≠ '-' && c ≠ '\n'

/-- Whether one of the alternatives `\(|obo|-` matches at the head of `r`. -/
def pubSepAt (r : List Char) : Bool :=
  r.head? = some '(' || ("obo".data).isPrefixOf r || r.head? = some '-'

/-- `re.search(r'^([^-\n]+(?:Payday[^-\n]*?))\s*(?:\(|obo|-)', s)`, returning
`group(1)`.  The anchored pattern is played back by brute force in the
engine's backtracking order: the greedy `[^-\n]+` from longest to shortest,
the lazy `Payday[^-\n]*?` tail from shortest to longest, and `\s*` with
backtracking before the alternation. -/
def pubNameMatch (cs : List Char) : Option (List Char) :=
  ((List.range cs.length).map (fun k => cs.length - k)).findSome? fun aLen =>
    let a := cs.take aLen
    if a.all noDashNL && ("Payday".data).isPrefixOf (cs.drop aLen) then
      let rest := cs.drop (aLen + 6)
      (List.range (rest.length + 1)).findSome? fun cLen =>
        let c := rest.take cLen
        if c.all noDashNL then
          let r2 := rest.drop cLen
          let maxw := (r2.takeWhile pyWs).length
          if (List.range (maxw + 1)).any (fun w => pubSepAt (r2.drop w))
          then some (a ++ "Payday".data ++ c)
          else none
        else none
    else none

/-- `re.sub(r'\s*\([^)]*\).*$', '', publisher)` followed by `.strip()`:
the first `(` that still has a `)` after it starts the erased tail (the
`\s*` before it and the trailing text are covered by the final strip). -/
def dropSocietyTail : List Char → List Char
  | [] => []
  | c :: rest =>
    if c = '(' && containsSub [')'] rest then []
    else c :: dropSocietyTail rest

/-- `CurveConverter.extract_publisher_name(value)`: the matched publisher
text, society parenthetical stripped, else the empty string. -/
def extract_publisher_name (value : String) : String :=
  if value.data = [] then ""
  else
    match pubNameMatch value.data with
    | some g1 => ⟨pyStripL (dropSocietyTail (pyStripL g1))⟩
    | none => ""

/-- `CurveConverter.extract_publisher_society(value)`: first society code in
parentheses, else the empty string (the body is character-for-character the
body of `extract_writer_society`). -/
def extract_publisher_society (value : String) : String :=
  if value.data = [] then ""
  else ((findParenSoc value.data).map (fun l => (⟨l⟩ : String))).getD ""

/-- `CurveConverter.extract_publisher_mechanical_share(value)`: only the
labelled `Payday Total: NN%` number, else `0.0` (no bare-percent fallback). -/
def extract_publisher_mechanical_share (value : String) : ℚ :=
  if value.data = [] then 0
  else
    match findPaydayTotal value.data with
    | some v => (pyFloatL v).getD 0
    | none => 0

/-- `CurveConverter.extract_publisher_performance_share(value)`: delegates to
the mechanical extractor. -/
def extract_publisher_performance_share (value : String) : ℚ :=
  extract_publisher_mechanical_share value

/-! ## Remaining simple transforms -/

/-- Python `str.title()`, ASCII model: a letter after a non-letter is
uppercased, a letter after a letter is lowercased. -/
def pyTitleL (prevAlpha : Bool) : List Char → List Char
  | [] => []
  | c :: r =>
    if c.isAlpha then
      (if prevAlpha then c.toLower else c.toUpper) :: pyTitleL true r
    else c :: pyTitleL false r

/-- Python `str.zfill(width)`: zero-pad on the left to `width`, inserting the
zeros after a leading sign. -/
def pyZfill (s : String) (width : ℕ) : String :=
  match s.data with
  | '+' :: r =>
    if s.length < width then ⟨'+' :: List.replicate (width - s.length) '0' ++ r⟩ else s
  | '-' :: r =>
    if s.length < width then ⟨'-' :: List.replicate (width - s.length) '0' ++ r⟩ else s
  | r =>
    if s.length < width then ⟨List.replicate (width - s.length) '0' ++ r⟩ else s

/-- Python `str.rjust(width, fill)`. -/
def pyRjust (s : String) (width : ℕ) (fill : Char) : String :=
  if s.length < width then ⟨List.replicate (width - s.length) fill ++ s.data⟩ else s

/-- Association-list lookup modelling Python `dict.get(key, fallback)`. -/
def dictGet (d : List (String × String)) (k : String) (fallback : String) : String :=
  match d.find? (fun p => p.1 = k) with
  | some p => p.2
  | none => fallback

/-! ## Configuration and converter context -/

/-- The `lookups` section of the mapping configuration. -/
structure Lookups where
  role_codes : List (String × String) := []
  society_codes : List (String × String) := []
  territories : List (String × String) := []

/-- The `validation_rules` section, with the defaults the source supplies at
each `get`.  The configurable ISWC/ISRC/IPI regexes are abstracted as
matcher functions (`none` selects the source's default pattern). -/
structure ValidationRules where
  required_fields : List String := []
  share_tolerance : ℚ := 1 / 100
  max_participants : ℕ := 10
  iswc_pattern : Option (String → Bool) := none
  isrc_pattern : Option (String → Bool) := none
  ipi_pattern : Option (String → Bool) := none

/-- The loaded converter state that `transform_value`, `validate_value` and
`validate_row` read.  `strip_diacritics` (Unicode NFD normalization plus
combining-mark removal, lines 280-283) depends on the Unicode character
database and is carried as an abstract parameter of the environment. -/
structure ConvCtx where
  lookups : Lookups := {}
  validation_rules : ValidationRules := {}
  strip_diacritics : String → String := id

/-! ## `transform_value` (lines 198-278) -/

/-- The blank guard of `transform_value`: `pd.isna(value) or value == ''`. -/
def isBlankV (v : Val) : Bool := v.isna || v = Val.vstr ""

/-- `CurveConverter.transform_value(value, transform)`: the dispatch chain of
the source, branch for branch and in source order.  The `str(value).strip()`
conversion never raises on the modelled values, so the early
`return ''` on a failed conversion is unreachable here. -/
def transform_value (ctx : ConvCtx) (value : Val) (transform : String) : Val :=
  if isBlankV value then .vstr ""
  else
    let value := pyStrip (pyStr value)
    if transform = "strip" then .vstr (pyStrip value)
    else if transform = "uppercase" then .vstr ⟨value.data.map Char.toUpper⟩
    else if transform = "lowercase" then .vstr ⟨value.data.map Char.toLower⟩
    else if transform = "titlecase" then .vstr ⟨pyTitleL false value.data⟩
    else if transform = "strip_diacritics" then .vstr (ctx.strip_diacritics value)
    else if pyStartsWith transform "to_date:" then
      .vstr (parse_date value (strDropN transform 8))
    else if transform = "percent_0_100" then .vnum (convert_to_percent_100 value)
    else if transform = "percent_0_1" then .vnum (convert_to_percent_1 value)
    else if pyStartsWith transform "padleft:" then
      let parts := (splitOnSub [':'] transform.data).map (fun l => (⟨l⟩ : String))
      let width := (pyToNat (parts.getD 1 "")).getD 0
      let fill_char := parts.getD 2 ""
      .vstr (if fill_char = "0" then pyZfill value width
             else pyRjust value width ((fill_char.data.headD ' ')))
    else if pyStartsWith transform "concat:" then .vstr value
    else if pyStartsWith transform "split:" then
      .vlist ((splitOnSub (strDropN transform 6).data value.data).map
        (fun l => (⟨l⟩ : String)))
    else if transform = "format_iswc" then .vstr (format_iswc value)
    else if transform = "format_isrc" then .vstr (format_isrc value)
    else if transform = "format_ipi" then .vstr (format_ipi value)
    else if transform = "format_duration" then .vstr (format_duration value)
    else if transform = "map_role" then
      .vstr (dictGet ctx.lookups.role_codes value value)
    else if transform = "map_society" then
      .vstr (dictGet ctx.lookups.society_codes value value)
    else if transform = "map_territory" then
      .vstr (dictGet ctx.lookups.territories value value)
    else if transform = "extract_writer_name" then .vstr (extract_writer_name value)
    else if transform = "extract_writer_society" then .vstr (extract_writer_society value)
    else if transform = "extract_writer_ipi" then .vstr (extract_writer_ipi value)
    else if transform = "extract_mechanical_share" then .vnum (extract_mechanical_share value)
    else if transform = "extract_performance_share" then .vnum (extract_performance_share value)
    else if transform = "extract_additional_writer_name" then
      .vstr (extract_additional_writer_name value)
    else if transform = "extract_additional_writer_society" then
      .vstr (extract_additional_writer_society value)
    else if transform = "extract_additional_mechanical_share" then
      .vnum (extract_additional_mechanical_share value)
    else if transform = "extract_additional_performance_share" then
      .vnum (extract_additional_performance_share value)
    else if transform = "extract_publisher_name" then .vstr (extract_publisher_name value)
    else if transform = "extract_publisher_society" then .vstr (extract_publisher_society value)
    else if transform = "extract_publisher_mechanical_share" then
      .vnum (extract_publisher_mechanical_share value)
    else if transform = "extract_publisher_performance_share" then
      .vnum (extract_publisher_performance_share value)
    else .vstr value

/-- A transform name the dispatch of `transform_value` recognizes: one of the
exact names, or one of the prefixed families. -/
def recognizedTransform (t : String) : Bool :=
  t ∈ ["strip", "uppercase", "lowercase", "titlecase", "strip_diacritics",
       "percent_0_100", "percent_0_1", "format_iswc", "format_isrc",
       "format_ipi", "format_duration", "map_role", "map_society",
       "map_territory", "extract_writer_name", "extract_writer_society",
       "extract_writer_ipi", "extract_mechanical_share",
       "extract_performance_share", "extract_additional_writer_name",
       "extract_additional_writer_society", "extract_additional_mechanical_share",
       "extract_additional_performance_share", "extract_publisher_name",
       "extract_publisher_society", "extract_publisher_mechanical_share",
       "extract_publisher_performance_share"]
  || pyStartsWith t "to_date:" || pyStartsWith t "padleft:"
  || pyStartsWith t "concat:" || pyStartsWith t "split:"

/-! ## `validate_value` (lines 512-550) -/

/-- Default ISWC pattern `^T-\d{9}-\d$` (`re.match` with both anchors). -/
def iswcDefaultMatch (s : String) : Bool :=
  match s.data with
  | 'T' :: '-' :: rest =>
    rest.length = 11 && (rest.take 9).all Char.isDigit
      && ((rest.drop 9).head? = some '-')
      && (((rest.drop 10).head?.map Char.isDigit).getD false)
  | _ => false

/-- Default ISRC pattern `^[A-Z]{2}[A-Z0-9]{3}\d{7}$`. -/
def isrcDefaultMatch (s : String) : Bool :=
  s.length = 12
    && (s.data.take 2).all (fun c => c.isUpper)
    && ((s.data.drop 2).take 3).all (fun c => c.isUpper || c.isDigit)
    && (s.data.drop 5).all Char.isDigit

/-- Default IPI pattern `^\d{9}$|^\d{11}$`. -/
def ipiDefaultMatch (s : String) : Bool :=
  s.data.all Char.isDigit && (s.length = 9 || s.length = 11)

/-- Strict `^\d{4}-\d{2}-\d{2}$` date shape of the `date_format` rule. -/
def dateFormatMatch (s : String) : Bool :=
  match s.data with
  | [a, b, c, d, '-', e, f, '-', g, h] =>
    [a, b, c, d, e, f, g, h].all Char.isDigit
  | _ => false

/-- `CurveConverter.validate_value(value, validation, column_name)`: the list
of error strings of the source, rule for rule. -/
def validate_value (ctx : ConvCtx) (value : Val) (validation : String)
    (column_name : String) : List String :=
  if validation = "required" then
    if !value.truthy || value.isna || pyStrip (pyStr value) = "" then
      ["Required field '" ++ column_name ++ "' is empty"]
    else []
  else if validation = "date_format" then
    if value.truthy && !dateFormatMatch (pyStr value) then
      ["Invalid date format in '" ++ column_name ++ "': " ++ pyStr value]
    else []
  else if validation = "iswc_format" then
    let pat := ctx.validation_rules.iswc_pattern.getD iswcDefaultMatch
    if value.truthy && !pat (pyStr value) then
      ["Invalid ISWC format in '" ++ column_name ++ "': " ++ pyStr value]
    else []
  else if validation = "isrc_format" then
    let pat := ctx.validation_rules.isrc_pattern.getD isrcDefaultMatch
    if value.truthy && !pat (pyReplace (pyStr value) "-" "") then
      ["Invalid ISRC format in '" ++ column_name ++ "': " ++ pyStr value]
    else []
  else if validation = "ipi_format" then
    let pat := ctx.validation_rules.ipi_pattern.getD ipiDefaultMatch
    if value.truthy && !pat (pyStr value) then
      ["Invalid IPI format in '" ++ column_name ++ "': " ++ pyStr value]
    else []
  else if validation = "share_range" then
    if value.truthy then
      match floatV value with
      | some val =>
        if !(0 ≤ val ∧ val ≤ 100) then
          ["Share value out of range (0-100) in '" ++ column_name ++ "': " ++ qRepr val]
        else []
      | none =>
        ["Invalid share value in '" ++ column_name ++ "': " ++ pyStr value]
    else []
  else if validation = "valid_role" then
    let valid_roles := ctx.lookups.role_codes.map Prod.snd
    if value.truthy && !(match value with | .vstr s => s ∈ valid_roles | _ => false) then
      ["Invalid role code in '" ++ column_name ++ "': " ++ pyStr value]
    else []
  else if validation = "valid_society" then
    let valid_societies := ctx.lookups.society_codes.map Prod.snd
    if value.truthy && !(match value with | .vstr s => s ∈ valid_societies | _ => false) then
      ["Invalid society code in '" ++ column_name ++ "': " ++ pyStr value]
    else []
  else []

/-- A validation name the dispatch of `validate_value` recognizes. -/
def recognizedValidation (v : String) : Bool :=
  v ∈ ["required", "date_format", "iswc_format", "isrc_format", "ipi_format",
       "share_range", "valid_role", "valid_society"]

/-! ## `validate_row` (lines 552-605) -/

/-- The error codes the converter emits. -/
inductive ErrCode where
  | REQUIRED_FIELD_MISSING
  | MECHANICAL_SHARES_INVALID
  | PERFORMANCE_SHARES_INVALID
  | FIELD_ERROR
  deriving DecidableEq, Repr

/-- One accumulated conversion error
(`{row_index, work_title, error_code, error_detail}`). -/
structure ConvError where
  row_index : ℕ
  work_title : Val
  error_code : ErrCode
  error_detail : String
  deriving DecidableEq, Repr

/-- `row.get(key, fallback)` on the assembled row (a `pd.Series` over the
destination columns; a missing key yields the fallback, `None` when the
source passes none). -/
def rowGetD (row : List (String × Val)) (k : String) (d : Val) : Val :=
  match row.find? (fun p => p.1 = k) with
  | some p => p.2
  | none => d

/-- The share-total accumulation for one participant slot `i`: the body of
the `for i in range(1, max_participants + 1)` loop.  The `try` block wraps
both additions, and its `except ... continue` aborts the rest of the slot:
a slot whose mechanical value raises in `float()` also skips that slot's
performance value. -/
def slotAdd (row : List (String × Val)) (i : ℕ) (t : ℚ × ℚ) : ℚ × ℚ :=
  let mech_val := rowGetD row ("Participant " ++ toString i ++ " Mechanical Share") (.vnum 0)
  let perf_val := rowGetD row ("Participant " ++ toString i ++ " Performance Share") (.vnum 0)
  if mech_val.truthy && !mech_val.isna then
    match floatV mech_val with
    | none => t
    | some m =>
      if perf_val.truthy && !perf_val.isna then
        match floatV perf_val with
        | none => (t.1 + m, t.2)
        | some p => (t.1 + m, t.2 + p)
      else (t.1 + m, t.2)
  else
    if perf_val.truthy && !perf_val.isna then
      match floatV perf_val with
      | none => t
      | some p => (t.1, t.2 + p)
    else t

/-- `(mech_total, perf_total)` over participant slots `1..max_participants`. -/
def shareTotals (ctx : ConvCtx) (row : List (String × Val)) : ℚ × ℚ :=
  (List.range' 1 ctx.validation_rules.max_participants).foldl
    (fun t i => slotAdd row i t) (0, 0)

/-- `row.get('Work Title', 'Unknown')`. -/
def workTitle (row : List (String × Val)) : Val :=
  rowGetD row "Work Title" (.vstr "Unknown")

/-- The detail message of a `MECHANICAL_SHARES_INVALID` error
(`f"Mechanical shares total {mech_total}%, should be 100%"`). -/
def mechMsg (total : ℚ) : String :=
  "Mechanical shares total " ++ qRepr total ++ "%, should be 100%"

/-- The detail message of a `PERFORMANCE_SHARES_INVALID` error. -/
def perfMsg (total : ℚ) : String :=
  "Performance shares total " ++ qRepr total ++ "%, should be 100%"

/-- `CurveConverter.validate_row(row, row_idx)`: required-field errors for
every configured required field that is blank, then the mechanical- and
performance-share checks.  A share error is emitted when the total is
**strictly positive** (`mech_total > 0`) and off by more than the
tolerance. -/
def validate_row (ctx : ConvCtx) (row : List (String × Val)) (row_idx : ℕ) :
    List ConvError :=
  let reqErrs := ctx.validation_rules.required_fields.filterMap fun field =>
    let v := rowGetD row field .vnone
    if !v.truthy || v.isna || pyStrip (pyStr v) = "" then
      some ⟨row_idx, workTitle row, .REQUIRED_FIELD_MISSING,
            "Required field '" ++ field ++ "' is empty"⟩
    else none
  let t := shareTotals ctx row
  let tol := ctx.validation_rules.share_tolerance
  reqErrs
    ++ (if t.1 > 0 ∧ |t.1 - 100| > tol then
          [⟨row_idx, workTitle row, .MECHANICAL_SHARES_INVALID, mechMsg t.1⟩]
        else [])
    ++ (if t.2 > 0 ∧ |t.2 - 100| > tol then
          [⟨row_idx, workTitle row, .PERFORMANCE_SHARES_INVALID, perfMsg t.2⟩]
        else [])

/-! ## `convert_row` (lines 607-654) and `convert_file` (lines 656-777) -/

/-- One entry of the `columns` list of the mapping configuration, with the
defaults the source supplies at each `get`. -/
structure ColumnMapping where
  dest : String
  source : Option String := none
  transform : String := ""
  default : Val := .vstr ""
  validation : Option String := none

/-- Python dict assignment `result[dest] = value` on an insertion-ordered
association list. -/
def dictSet (d : List (String × Val)) (k : String) (v : Val) : List (String × Val) :=
  if d.any (fun p => p.1 = k) then
    d.map (fun p => if p.1 = k then (k, v) else p)
  else d ++ [(k, v)]

/-- `CurveConverter.convert_row(row, row_idx)`: build the result record in
mapping order and collect this row's errors.  Every modelled transform is
total, so the `except` path that records a transform `FIELD_ERROR` and falls
back to the default is unreachable in the model; `row_errors` therefore
holds exactly the `validate_value` messages, each wrapped as a
`FIELD_ERROR` record, followed by the `validate_row` records. -/
def convert_row (ctx : ConvCtx) (cols : List ColumnMapping)
    (row : List (String × Val)) (row_idx : ℕ) :
    List (String × Val) × List ConvError :=
  let step := fun (acc : List (String × Val) × List String) (c : ColumnMapping) =>
    let value :=
      match c.source with
      | some s =>
        if s ≠ "" ∧ row.any (fun p => p.1 = s) then rowGetD row s .vnone
        else c.default
      | none => c.default
    let value := if c.transform ≠ "" then transform_value ctx value c.transform else value
    let verrs :=
      match c.validation with
      | some v => validate_value ctx value v c.dest
      | none => []
    (dictSet acc.1 c.dest value, acc.2 ++ verrs)
  let (result, row_errors) := cols.foldl step ([], [])
  let row_validation_errors := validate_row ctx result row_idx
  let wrapped := row_errors.map fun e =>
    ConvError.mk row_idx (workTitle result) .FIELD_ERROR e
  (result, wrapped ++ row_validation_errors)

/-- The error-report path: `output_file.replace('.xlsx', '_errors.csv').replace('.csv', '_errors.csv')` (line 749). -/
def errorFilePath (output_file : String) : String :=
  pyReplace (pyReplace output_file ".xlsx" "_errors.csv") ".csv" "_errors.csv"

/-- Outcome of a `convert_file` run: the returned boolean and the files
written, in the order they were written. -/
structure FileResult where
  ok : Bool
  written : List String
  deriving DecidableEq, Repr

/-- The errors a run over `rows` accumulates (`self.errors` after the
conversion loop). -/
def runErrors (ctx : ConvCtx) (cols : List ColumnMapping)
    (rows : List (List (String × Val))) : List ConvError :=
  ((rows.enum.map fun p => (convert_row ctx cols p.2 (p.1 + 2)).2)).flatten

/-- `CurveConverter.convert_file(input, output)` after the input table has
been read: the purely computational part of the state machine.  `header` is
`df.columns`, `rows` the data rows.  Modelled faithfully: the empty-table
guard, the mappable-column guard of `_validate_source_columns`, row
conversion at index `idx + 2` (1-based plus header), the main output write,
and the error-report write followed by the strict-mode verdict.  File
I/O failures and per-row exceptions (unreachable for the total modelled
transforms) are outside the model. -/
def convert_file (ctx : ConvCtx) (cols : List ColumnMapping) (strict : Bool)
    (header : List String) (rows : List (List (String × Val)))
    (output_file : String) : FileResult :=
  if rows = [] then ⟨false, []⟩
  else
    let mappable := cols.countP fun c =>
      match c.source with
      | none => true
      | some s => s = "" || s ∈ header
    if mappable = 0 then ⟨false, []⟩
    else
      let converted := rows.enum.map fun p => convert_row ctx cols p.2 (p.1 + 2)
      if converted = [] then ⟨false, []⟩
      else
        let errors := (converted.map Prod.snd).flatten
        let written := [output_file]
        if errors ≠ [] then
          let written := written ++ [errorFilePath output_file]
          if strict then ⟨false, written⟩ else ⟨true, written⟩
        else ⟨true, written⟩

/-! ## Helper lemmas -/

/-- `List.findSome?` returns the image of the first element on which `f`
fires: positional form used to replay the `for fmt in formats` loop. -/
theorem findSome_first {α β : Type} (f : α → Option β) :
    ∀ (l : List α) (i : ℕ) (a : α) (b : β), l.get? i = some a → f a = some b →
      (∀ j a2, j < i → l.get? j = some a2 → f a2 = none) →
      l.findSome? f = some b := by
  intro l
  induction l with
  | nil => intro i a b h; simp at h
  | cons x xs ih =>
    intro i a b hget hf hnone
    cases i with
    | zero =>
      simp only [List.get?] at hget
      injection hget with hget
      subst hget
      simp [List.findSome?_cons, hf]
    | succ n =>
      have hx : f x = none := hnone 0 x (Nat.succ_pos n) rfl
      simp only [List.findSome?_cons, hx]
      exact ih n a b (by simpa using hget) hf
        (fun j a2 hj hg => hnone (j + 1) a2 (by omega) (by simpa using hg))

/-! ## Claim theorems -/

/-- **C7.** For every missing/blank input (null-equivalent or empty string)
and every transform name, `transform_value` returns the empty string, before
any named transform runs. -/
theorem transform_value_blank (ctx : ConvCtx) (v : Val) (t : String)
    (h : isBlankV v = true) : transform_value ctx v t = Val.vstr "" := by
  unfold transform_value
  simp [h]

/-- Witness for C7 at the two blank forms and an arbitrary transform name. -/
theorem transform_value_blank_witness :
    isBlankV Val.vnone = true
    ∧ transform_value {} Val.vnone "uppercase" = Val.vstr ""
    ∧ transform_value {} (Val.vstr "") "to_date:%Y-%m-%d" = Val.vstr "" :=
  ⟨rfl, transform_value_blank {} Val.vnone "uppercase" rfl,
    transform_value_blank {} (Val.vstr "") "to_date:%Y-%m-%d" rfl⟩

/-- **C10.** `extract_writer_society` and `extract_publisher_society` are
extensionally equal: both return the first society code among
ASCAP, BMI, SESAC, PRS, GEMA, SACEM, SOCAN, APRA found in parentheses, or
the empty string when none is present — the two source methods have
identical bodies, and so do their embeddings. -/
theorem writer_society_eq_publisher_society :
    ∀ v : String, extract_writer_society v = extract_publisher_society v :=
  fun _ => rfl

/-- **C6, counterexample.** The claim says the writer name is the text before
the first `(` or ` - `, whichever comes first; on `"Bob - 50%"` (a ` - ` but
no parenthesis) the code keeps the whole string, not `"Bob"`. -/
theorem extract_writer_name_counterexample :
    extract_writer_name "Bob - 50%" = "Bob - 50%"
    ∧ extract_writer_name "Bob - 50%" ≠ "Bob" := by
  constructor
  · decide
  · decide

/-- **C6, amended.** For every input, `extract_writer_name` returns the
trimmed text before the first `(` only; the ` - ` separator is consulted
only in the fallback branch, which runs only when the value starts with `(`
and then returns the empty string — so the result is always
`strip(text before the first parenthesis)`. -/
theorem extract_writer_name_amended (s : String) :
    extract_writer_name s = ⟨pyStripL (takeUntilChar '(' s.data)⟩ := by
  unfold extract_writer_name extract_writer_nameL
  cases h : s.data with
  | nil => simp [takeUntilChar, pyStripL]
  | cons c r =>
    by_cases hc : c = '('
    · subst hc
      simp [takeUntilChar, takeUntilSub, pyStripL]
    · simp [hc, takeUntilChar]

/-- **C3 (code bug).** The error-report path is derived by
`output_file.replace('.xlsx', '_errors.csv').replace('.csv', '_errors.csv')`:
for a `.csv` output this yields the documented `<output-base>_errors.csv`,
but for an `.xlsx` output the second replace re-matches the `.csv` that the
first replace just introduced, producing `<output-base>_errors_errors.csv`. -/
theorem errorFilePath_xlsx_doubles :
    errorFilePath "out.xlsx" = "out_errors_errors.csv"
    ∧ errorFilePath "out.csv" = "out_errors.csv"
    ∧ errorFilePath "out.xlsx" ≠ "out_errors.csv" := by
  refine ⟨by decide, by decide, by decide⟩

unseal Rat.add Rat.mul Rat.sub Rat.inv in
/-- **C1, counterexample.** The claim triggers the share check whenever a
total is *nonzero* and off by more than the tolerance; the code tests
`mech_total > 0`, so a row whose single declared mechanical share is `-50`
(total `-50`, nonzero and 150 away from 100) produces no error at all. -/
theorem validate_row_negative_total_counterexample :
    shareTotals {} [("Participant 1 Mechanical Share", Val.vstr "-50")] = (-50, 0)
    ∧ validate_row {} [("Participant 1 Mechanical Share", Val.vstr "-50")] 2 = [] := by
  constructor
  · decide
  · decide

/-- **C1, amended.** `validate_row` emits exactly one
`MECHANICAL_SHARES_INVALID` (resp. `PERFORMANCE_SHARES_INVALID`) error,
carrying the computed total in its detail message, precisely when the
corresponding total over participant slots `1..max_participants` is
**strictly positive** and differs from 100 by more than the configured
tolerance; a zero — or negative — total never triggers the check.  The
totals themselves are accumulated per slot under one `try`: an unparseable
mechanical value skips that slot's performance value as well (`slotAdd`). -/
theorem validate_row_share_errors (ctx : ConvCtx) (row : List (String × Val))
    (idx : ℕ) :
    ((validate_row ctx row idx).filter
        (fun e => e.error_code = .MECHANICAL_SHARES_INVALID)
      = if (shareTotals ctx row).1 > 0
            ∧ |(shareTotals ctx row).1 - 100| > ctx.validation_rules.share_tolerance
        then [⟨idx, workTitle row, .MECHANICAL_SHARES_INVALID,
              mechMsg (shareTotals ctx row).1⟩]
        else [])
    ∧ ((validate_row ctx row idx).filter
        (fun e => e.error_code = .PERFORMANCE_SHARES_INVALID)
      = if (shareTotals ctx row).2 > 0
            ∧ |(shareTotals ctx row).2 - 100| > ctx.validation_rules.share_tolerance
        then [⟨idx, workTitle row, .PERFORMANCE_SHARES_INVALID,
              perfMsg (shareTotals ctx row).2⟩]
        else [])
    := by
  have hreq : ∀ e ∈ (ctx.validation_rules.required_fields.filterMap fun field =>
      let v := rowGetD row field .vnone
      if !v.truthy || v.isna || pyStrip (pyStr v) = "" then
        some (ConvError.mk idx (workTitle row) .REQUIRED_FIELD_MISSING
              ("Required field '" ++ field ++ "' is empty"))
      else none), e.error_code = ErrCode.REQUIRED_FIELD_MISSING := by
    intro e he
    rw [List.mem_filterMap] at he
    obtain ⟨f, _, hf⟩ := he
    by_cases hc : (!(rowGetD row f .vnone).truthy || (rowGetD row f .vnone).isna
        || pyStrip (pyStr (rowGetD row f .vnone)) = "")
    · simp only [hc, if_pos] at hf
      cases hf
      rfl
    · simp only [hc] at hf
      simp at hf
  constructor
  · show List.filter _ (_ ++ _ ++ _) = _
    rw [List.filter_append, List.filter_append]
    rw [List.filter_eq_nil_iff.mpr (by
      intro e he
      have := hreq e he
      simp [this])]
    have h2 : List.filter (fun e : ConvError => decide (e.error_code = ErrCode.MECHANICAL_SHARES_INVALID))
        (if (shareTotals ctx row).2 > 0
            ∧ |(shareTotals ctx row).2 - 100| > ctx.validation_rules.share_tolerance
          then [ConvError.mk idx (workTitle row) .PERFORMANCE_SHARES_INVALID
                (perfMsg (shareTotals ctx row).2)]
          else []) = [] := by
      split <;> simp
    rw [h2]
    split <;> simp
  · show List.filter _ (_ ++ _ ++ _) = _
    rw [List.filter_append, List.filter_append]
    rw [List.filter_eq_nil_iff.mpr (by
      intro e he
      have := hreq e he
      simp [this])]
    have h2 : List.filter (fun e : ConvError => decide (e.error_code = ErrCode.PERFORMANCE_SHARES_INVALID))
        (if (shareTotals ctx row).1 > 0
            ∧ |(shareTotals ctx row).1 - 100| > ctx.validation_rules.share_tolerance
          then [ConvError.mk idx (workTitle row) .MECHANICAL_SHARES_INVALID
                (mechMsg (shareTotals ctx row).1)]
          else []) = [] := by
      split <;> simp
    rw [h2]
    split <;> simp

/-- **C2, counterexample.** The claim says an input that matches no date
pattern is returned *unmodified*; the code returns the cleaned string: on
`"x 00:00:00"` every occurrence of `' 00:00:00'` has been removed (and the
result stripped), so the call returns `"x"`, not the original. -/
theorem parse_date_returns_cleaned_counterexample :
    parse_date "x 00:00:00" "%Y-%m-%d" = "x"
    ∧ parse_date "x 00:00:00" "%Y-%m-%d" ≠ "x 00:00:00" := by
  constructor
  · decide
  · decide

/-- **C2, amended.** For every non-blank input string and output format,
`parse_date` first cleans the value — `strip()`, then removal of **every**
occurrence of `' 00:00:00'` (not only a trailing one) — and then tries the
fixed ordered pattern list Y-M-D, M/D/Y, D/M/Y, Y/M/D, M-D-Y, D-M-Y,
Y.M.D, M.D.Y on the cleaned string: the first pattern that parses wins and
the parsed date is rendered in the requested format; if no pattern matches,
the **cleaned** string (not the original) is returned. -/
theorem parse_date_first_match (s fmt : String) (h : s.data ≠ []) :
    (tryFormats strptimeFormats (cleanDate s) = none →
      parse_date s fmt = cleanDate s)
    ∧ (∀ i f y m d, strptimeFormats.get? i = some f →
        strptime1 f (cleanDate s) = some (y, m, d) →
        (∀ j g, j < i → strptimeFormats.get? j = some g →
          strptime1 g (cleanDate s) = none) →
        parse_date s fmt = ⟨strftimeYMD y m d fmt.data⟩) := by
  constructor
  · intro hn
    unfold parse_date
    rw [if_neg h]
    simp only [hn]
  · intro i f y m d hget hf hnone
    have hsome : tryFormats strptimeFormats (cleanDate s) = some (y, m, d) :=
      findSome_first _ strptimeFormats i f (y, m, d) hget hf hnone
    unfold parse_date
    rw [if_neg h]
    simp only [hsome]

/-- Witness for C2: `"05/06/2020 00:00:00"` is cleaned to `"05/06/2020"`,
pattern 0 (`Y-M-D`) fails on it, pattern 1 (`M/D/Y`) parses it as
2020-05-06, and the result is rendered through the requested format. -/
theorem parse_date_first_match_witness :
    parse_date "05/06/2020 00:00:00" "%Y-%m-%d" = ⟨strftimeYMD 2020 5 6 "%Y-%m-%d".data⟩
    ∧ parse_date "05/06/2020 00:00:00" "%Y-%m-%d" = "2020-05-06" := by
  constructor
  · exact (parse_date_first_match "05/06/2020 00:00:00" "%Y-%m-%d" (by decide)).2
      1 ⟨"/", .mdy⟩ 2020 5 6 (by decide) (by decide)
      (fun j g hj hg => by
        have hj0 : j = 0 := by omega
        subst hj0
        simp only [List.get?] at hg
        injection hg with hg
        subst hg
        decide)
  · decide

/-- **C4.** On a run whose input has at least one data row and at least one
mappable column (so the conversion reaches the writing phase; every modelled
row conversion is exception-free), if any error was accumulated then
`convert_file` in strict mode returns failure — and the written-files trace
shows the main output file written first, before the error report and the
failure verdict — while the same run in non-strict mode returns success with
the identical trace. -/
theorem convert_file_strict_flips (ctx : ConvCtx) (cols : List ColumnMapping)
    (header : List String) (rows : List (List (String × Val)))
    (out : String)
    (h1 : rows ≠ [])
    (h2 : cols.countP (fun c =>
        match c.source with
        | none => true
        | some s => s = "" || s ∈ header) ≠ 0)
    (h3 : runErrors ctx cols rows ≠ []) :
    convert_file ctx cols true header rows out
      = ⟨false, [out, errorFilePath out]⟩
    ∧ convert_file ctx cols false header rows out
      = ⟨true, [out, errorFilePath out]⟩ := by
  have hconv : (rows.enum.map fun p => convert_row ctx cols p.2 (p.1 + 2)) ≠ [] := by
    intro hc
    rw [List.map_eq_nil_iff, List.enum_eq_nil] at hc
    exact h1 hc
  have herr : ((rows.enum.map fun p => convert_row ctx cols p.2 (p.1 + 2)).map
      Prod.snd).flatten ≠ [] := by
    rw [List.map_map]
    exact h3
  constructor
  · unfold convert_file
    rw [if_neg h1, if_neg h2, if_neg hconv, if_pos herr]
    rfl
  · unfold convert_file
    rw [if_neg h1, if_neg h2, if_neg hconv, if_pos herr]
    rfl

/-- The one-column mapping of the C4 witness run: destination `Work Title`
drawn from source column `T`, validated as `required`. -/
def wtRequiredCol : ColumnMapping :=
  { dest := "Work Title", source := some "T", validation := some "required" }

/-- Witness for C4: a one-column mapping requiring `Work Title` on a one-row
table whose only cell is blank accumulates a required-field error; strict
mode fails after writing, non-strict succeeds with the same trace. -/
theorem convert_file_strict_flips_witness :
    convert_file {} [wtRequiredCol] true ["T"] [[("T", Val.vstr "")]] "out.csv"
      = ⟨false, ["out.csv", errorFilePath "out.csv"]⟩
    ∧ convert_file {} [wtRequiredCol] false ["T"] [[("T", Val.vstr "")]] "out.csv"
      = ⟨true, ["out.csv", errorFilePath "out.csv"]⟩ :=
  convert_file_strict_flips {} [wtRequiredCol] ["T"] [[("T", Val.vstr "")]] "out.csv"
    (by decide) (by decide) (by decide)

/-- **C5.** With `x` the float parsed from the input after the code's
removal of `%` characters: `percent_0_100` returns `round(100·x, 2)` for
`x ∈ [0,1]` and `round(x, 2)` for `x > 1`; `percent_0_1` returns
`round(x/100, 4)` for `x > 1`; and a non-blank input whose cleaned text
does not parse as a float makes both transforms return `0.0`. -/
theorem percent_transforms_spec (s : String) :
    (∀ x : ℚ, pyFloatS (pyReplace s "%" "") = some x →
      ((0 ≤ x ∧ x ≤ 1) → convert_to_percent_100 s = round2 (100 * x))
      ∧ (1 < x → convert_to_percent_100 s = round2 x)
      ∧ (1 < x → convert_to_percent_1 s = round4 (x / 100)))
    ∧ (pyFloatS (pyReplace s "%" "") = none →
      convert_to_percent_100 s = 0 ∧ convert_to_percent_1 s = 0) := by
  constructor
  · intro x hx
    refine ⟨?_, ?_, ?_⟩
    · intro hr
      unfold convert_to_percent_100
      rw [hx]
      dsimp only
      rw [if_pos hr, mul_comm]
    · intro h1
      unfold convert_to_percent_100
      rw [hx]
      dsimp only
      rw [if_neg (fun hc : 0 ≤ x ∧ x ≤ 1 => absurd h1 (not_lt.mpr hc.2))]
    · intro h1
      unfold convert_to_percent_1
      rw [hx]
      dsimp only
      rw [if_pos h1]
  · intro hn
    constructor
    · unfold convert_to_percent_100
      rw [hn]
    · unfold convert_to_percent_1
      rw [hn]

unseal Rat.add Rat.mul Rat.sub Rat.inv in
/-- Witness for C5: `"0.5"` parses to `1/2` and scales to 50; `"250%"`
parses (after `%`-removal) to 250 and `percent_0_1` scales it to `5/2`;
`"abc"` does not parse and both transforms return 0. -/
theorem percent_transforms_spec_witness :
    convert_to_percent_100 "0.5" = round2 (100 * (1 / 2))
    ∧ convert_to_percent_1 "250%" = round4 (250 / 100)
    ∧ convert_to_percent_100 "abc" = 0
    ∧ convert_to_percent_1 "abc" = 0 := by
  refine ⟨((percent_transforms_spec "0.5").1 (1 / 2) ?_).1 (by norm_num),
    ((percent_transforms_spec "250%").1 250 ?_).2.2 (by norm_num),
    ((percent_transforms_spec "abc").2 ?_).1,
    ((percent_transforms_spec "abc").2 ?_).2⟩
  · show pyFloatS (pyReplace "0.5" "%" "") = some (1 / 2)
    decide
  · show pyFloatS (pyReplace "250%" "%" "") = some 250
    decide
  · decide
  · decide

/-- **C8.** For every non-blank input value, `transform_value` with a
transform name the dispatch does not recognize returns the stripped original
value unchanged (as a string, not an error), and `validate_value` with an
unrecognized validation name returns no errors. -/
theorem unknown_names_pass_through (ctx : ConvCtx) (v : Val) (t vr col : String)
    (hb : isBlankV v = false)
    (ht : recognizedTransform t = false)
    (hv : recognizedValidation vr = false) :
    transform_value ctx v t = Val.vstr (pyStrip (pyStr v))
    ∧ validate_value ctx v vr col = [] := by
  rw [recognizedTransform] at ht
  simp only [Bool.or_eq_false_iff, decide_eq_false_iff_not, List.mem_cons,
    not_or, List.not_mem_nil, not_false_iff, and_true] at ht
  obtain ⟨⟨⟨⟨⟨h1, h2, h3, h4, h5, h6, h7, h8, h9, h10, h11, h12, h13, h14,
    h15, h16, h17, h18, h19, h20, h21, h22, h23, h24, h25, h26, h27⟩,
    hp1⟩, hp2⟩, hp3⟩, hp4⟩ := ht
  rw [recognizedValidation] at hv
  simp only [decide_eq_false_iff_not, List.mem_cons, not_or,
    List.not_mem_nil, not_false_iff, and_true] at hv
  obtain ⟨g1, g2, g3, g4, g5, g6, g7, g8⟩ := hv
  constructor
  · unfold transform_value
    rw [hb]
    simp only [Bool.false_eq_true, if_false]
    simp only [if_neg h1, if_neg h2, if_neg h3, if_neg h4, if_neg h5,
      hp1, hp2, hp3, hp4, Bool.false_eq_true, if_false,
      if_neg h6, if_neg h7, if_neg h8, if_neg h9, if_neg h10, if_neg h11,
      if_neg h12, if_neg h13, if_neg h14, if_neg h15, if_neg h16, if_neg h17,
      if_neg h18, if_neg h19, if_neg h20, if_neg h21, if_neg h22, if_neg h23,
      if_neg h24, if_neg h25, if_neg h26, if_neg h27]
  · unfold validate_value
    simp only [if_neg g1, if_neg g2, if_neg g3, if_neg g4, if_neg g5,
      if_neg g6, if_neg g7, if_neg g8]

/-- Witness for C8: the unknown transform name `frobnicate` passes the
stripped value through; the unknown validation name `frob` yields no
errors. -/
theorem unknown_names_pass_through_witness :
    transform_value {} (Val.vstr "  hi  ") "frobnicate" = Val.vstr "hi"
    ∧ validate_value {} (Val.vstr "x") "frob" "Col" = [] := by
  have h := unknown_names_pass_through {} (Val.vstr "  hi  ") "frobnicate" "frob"
    "Col" (by decide) (by decide) (by decide)
  refine ⟨?_, h.2⟩
  rw [h.1]
  decide

/-- The digit filter is unchanged by ISWC formatting: filtering the
formatted list recovers the original ten digits. -/
theorem iswc_refilter (d : List Char) (hd : ∀ c ∈ d, Char.isDigit c) :
    ('T' :: '-' :: (d.take 9 ++ '-' :: d.drop 9)).filter Char.isDigit = d := by
  have hT : Char.isDigit 'T' = false := by decide
  have hDash : Char.isDigit '-' = false := by decide
  simp only [List.filter_cons, hT, hDash, Bool.false_eq_true, if_false,
    List.filter_append]
  rw [List.filter_eq_self.mpr (fun c hc => hd c (List.mem_of_mem_take hc)),
    List.filter_eq_self.mpr (fun c hc => hd c (List.mem_of_mem_drop hc)),
    List.take_append_drop]

/-- **C9.** `format_iswc` is idempotent on every input carrying exactly ten
digits — re-applying it to its own output reproduces the same string — and
its output there matches the `T-XXXXXXXXX-X` shape (the default ISWC
regex); every non-blank input with any other digit count passes through
unchanged. -/
theorem format_iswc_idempotent (s : String) :
    ((s.data.filter Char.isDigit).length = 10 →
      format_iswc (format_iswc s) = format_iswc s
      ∧ iswcDefaultMatch (format_iswc s) = true)
    ∧ (s.data ≠ [] → (s.data.filter Char.isDigit).length ≠ 10 →
      format_iswc s = s) := by
  constructor
  · intro h10
    have hne : s.data ≠ [] := by
      intro he
      rw [he] at h10
      simp at h10
    have hd : ∀ c ∈ s.data.filter Char.isDigit, Char.isDigit c :=
      fun c hc => List.of_mem_filter hc
    have hfs : format_iswc s
        = ⟨'T' :: '-' :: ((s.data.filter Char.isDigit).take 9
            ++ '-' :: (s.data.filter Char.isDigit).drop 9)⟩ := by
      unfold format_iswc
      rw [if_neg hne]
      simp only [h10, if_pos]
    have hdata : (format_iswc s).data
        = 'T' :: '-' :: ((s.data.filter Char.isDigit).take 9
            ++ '-' :: (s.data.filter Char.isDigit).drop 9) := by
      rw [hfs]
    have hfilter : (format_iswc s).data.filter Char.isDigit
        = s.data.filter Char.isDigit := by
      rw [hdata, iswc_refilter _ hd]
    constructor
    · conv_lhs => rw [format_iswc]
      rw [if_neg (by rw [hdata]; simp)]
      simp only [hfilter, h10, if_pos]
      rw [hfs]
    · have hA : ((s.data.filter Char.isDigit).take 9).length = 9 := by
        rw [List.length_take, h10]
        omega
      have hB : ((s.data.filter Char.isDigit).drop 9).length = 1 := by
        rw [List.length_drop, h10]
      obtain ⟨b, hb⟩ := List.length_eq_one.mp hB
      have hbdig : Char.isDigit b = true := by
        have : b ∈ (s.data.filter Char.isDigit).drop 9 := by
          rw [hb]
          exact List.mem_cons_self b []
        exact hd b (List.mem_of_mem_drop this)
      rw [iswcDefaultMatch, hdata]
      have htake : (((s.data.filter Char.isDigit).take 9)
          ++ '-' :: (s.data.filter Char.isDigit).drop 9).take 9
          = (s.data.filter Char.isDigit).take 9 := by
        rw [List.take_append_of_le_length (by rw [hA]),
          List.take_of_length_le (by rw [hA])]
      have hdrop9 : (((s.data.filter Char.isDigit).take 9)
          ++ '-' :: (s.data.filter Char.isDigit).drop 9).drop 9
          = '-' :: (s.data.filter Char.isDigit).drop 9 := by
        rw [List.drop_append_of_le_length (by rw [hA]),
          List.drop_eq_nil_of_le (by rw [hA]), List.nil_append]
      have hdrop10 : (((s.data.filter Char.isDigit).take 9)
          ++ '-' :: (s.data.filter Char.isDigit).drop 9).drop 10
          = (s.data.filter Char.isDigit).drop 9 := by
        have : (10 : ℕ) = 9 + 1 := by norm_num
        rw [this, ← List.drop_drop, hdrop9]
        rfl
      have hrest : (List.take 9 (List.filter Char.isDigit s.data)
          ++ '-' :: List.drop 9 (List.filter Char.isDigit s.data)).length = 11 := by
        rw [List.length_append, hA, List.length_cons, hB]
      refine (Bool.and_eq_true _ _).mpr ⟨(Bool.and_eq_true _ _).mpr
        ⟨(Bool.and_eq_true _ _).mpr ⟨by simp [hrest], ?_⟩, ?_⟩, ?_⟩
      · rw [htake, List.all_eq_true]
        intro c hc
        exact hd c (List.mem_of_mem_take hc)
      · rw [hdrop9]
        simp
      · rw [hdrop10, hb]
        simp [hbdig]
  · intro hne h10
    unfold format_iswc
    rw [if_neg hne, if_neg h10]

/-- Witness for C9: the ten-digit input `"1234567890"` formats to
`T-123456789-0`, re-formatting is a fixed point, the shape matcher accepts
it, and the five-digit input `"12345"` passes through unchanged. -/
theorem format_iswc_idempotent_witness :
    format_iswc "1234567890" = "T-123456789-0"
    ∧ format_iswc (format_iswc "1234567890") = format_iswc "1234567890"
    ∧ iswcDefaultMatch (format_iswc "1234567890") = true
    ∧ format_iswc "12345" = "12345" := by
  refine ⟨by decide, ((format_iswc_idempotent "1234567890").1 (by decide)).1,
    ((format_iswc_idempotent "1234567890").1 (by decide)).2,
    (format_iswc_idempotent "12345").2 (by decide) (by decide)⟩
